import Mathlib

/-!
Verification development for the vault-plugin-host repository.

This file shallowly embeds the request/lease translation layer
(handlers package: Handler.HandleRequest, Handler.HandleLeaseRenew,
Handler.HandleLeaseRevoke, Handler.HandleLeaseRevokeByPath) and the
attach/reattach descriptor parsing of PluginHost.Start, and proves
the frozen claims about them.

Modelling conventions:
- Go machine times and durations are Int nanoseconds (Go time.Duration
  and time.Time UnixNano are int64; the claims never exercise overflow,
  so unbounded Int is used with truncating division where Go truncates).
- JSON values decoded from request bodies are modelled by JValue.
  Go decodes JSON numbers to float64; the claims only involve
  integer-valued numbers, so JValue.num carries the integer value
  (Go time.Duration(v) truncates the float64 toward zero).
- The backend (logical.Backend seen through PluginBackend) is a function
  from the structured request to an Except of an error or an optional
  response.  The Storage view attached to every request is the same
  h.storage object in the source and carries no information the claims
  inspect, so it is omitted from the request model.
- Randomness (lease-id suffix, request id) and the wall clock are
  passed in as oracle arguments.
-/

/-- JSON-like values as decoded by encoding/json into map[string]interface\x7b\x7d,
plus Go time.Time values that the handlers place into notification maps. -/
inductive JValue where
  | null : JValue
  | bool (b : Bool) : JValue
  | num (n : Int) : JValue
  | str (s : String) : JValue
  | arr (xs : List JValue) : JValue
  | obj (fs : List (String × JValue)) : JValue
  | time (t : Int) : JValue

/-- An object body: the map[string]interface\x7b\x7d produced by json.Unmarshal. -/
abbrev JObj := List (String × JValue)

/-- logical.Operation values used by the handlers. -/
inductive Operation where
  | read | update | delete | list | renew | revoke | rollback | rotation | help
deriving DecidableEq

/-- logical.Secret: only the TTL (lease options) is consulted by the host
(resp.Secret.TTL); the value is otherwise stored and forwarded opaquely. -/
structure Secret where
  ttl : Int

/-- logical.Auth fields read when building the auth envelope entry. -/
structure Auth where
  policies : List String
  metadata : List (String × String)
  ttl : Int
  renewable : Bool

/-- logical.Response fields consulted by the handlers. -/
structure LResponse where
  data : Option JObj
  secret : Option Secret
  auth : Option Auth
  warnings : List String

/-- logical.Request fields the handlers populate (Storage omitted, see header). -/
structure LogicalRequest where
  operation : Operation
  path : String
  secret : Option Secret
  data : Option JObj

/-- Errors returned by backend.HandleRequest. -/
inductive BErr where
  | permissionDenied
  | other (msg : String)

/-- The message err.Error() would render. -/
def BErr.message : BErr → String
  | .permissionDenied => "permission denied"
  | .other m => m

/-- The plugin backend capability: HandleRequest. -/
def Backend := LogicalRequest → Except BErr (Option LResponse)

/-- LeaseInfo record stored in the lease table. -/
structure LeaseInfo where
  leaseId : String
  path : String
  data : JObj
  secret : Option Secret
  issueTime : Int
  expireTime : Int
  duration : Int
  renewable : Bool

/-- The lease table h.leases (a Go map; modelled as an association list,
keys kept unique by overwriting insertion). -/
abbrev Leases := List (String × LeaseInfo)

/-- Map read: h.leases[id] with presence flag. -/
def lget (t : Leases) (id : String) : Option LeaseInfo :=
  (t.find? (fun p => p.1 == id)).map (fun p => p.2)

/-- Map write: h.leases[id] = info (overwrite or insert). -/
def lset (t : Leases) (id : String) (info : LeaseInfo) : Leases :=
  if (t.find? (fun p => p.1 == id)).isSome then
    t.map (fun p => if p.1 == id then (p.1, info) else p)
  else
    t ++ [(id, info)]

/-- Map delete: delete(h.leases, id). -/
def ldel (t : Leases) (id : String) : Leases :=
  t.filter (fun p => ¬ p.1 == id)

/-- In-place field update of the stored lease (the two pointer writes
h.leases[id].ExpireTime = e; h.leases[id].Duration = d, sequentially). -/
def lupdate (t : Leases) (id : String) (e d : Int) : Leases :=
  t.map (fun p =>
    if p.1 == id then (p.1, { p.2 with expireTime := e, duration := d }) else p)

/-- Handler state: the swappable backend reference, the mount path and
the lease table (locks are invisible in the sequential model). -/
structure HandlerState where
  backend : Option Backend
  mountPath : String
  leases : Leases

/-- The HTTP request body as seen by io.ReadAll + json.Unmarshal:
empty, non-empty but not a JSON object (unmarshal error), or a decoded
JSON object. -/
inductive Body where
  | empty
  | malformed
  | json (o : JObj)

/-- The inbound HTTP request fields the handlers read.  queryOperation is
r.URL.Query().Get("operation"), which is the empty string when absent. -/
structure HttpRequest where
  method : String
  urlPath : String
  queryOperation : String
  body : Body

/-- The body written to the ResponseWriter. -/
inductive RespBody where
  | errors (msg : String)
  | envelope (fields : JObj)
  | noBody

/-- The HTTP response: status code, body, and Content-Type header. -/
structure HttpResponse where
  status : Nat
  body : RespBody
  contentType : Option String

/-- Result of running a handler: the HTTP response, the lease table
afterwards, and the structured requests sent to the backend, in order. -/
structure Outcome where
  resp : HttpResponse
  leases : Leases
  backendCalls : List LogicalRequest

/-- Content type set by writeVaultError and the JSON encoders. -/
def ctJson : Option String := some "application/json"

/-- writeVaultError: the uniform error envelope with the given status. -/
def vaultError (status : Nat) (msg : String) : HttpResponse :=
  ⟨status, .errors msg, ctJson⟩

/-! ### Go string and number primitives used by the source -/

/-- strings.TrimPrefix. -/
def goTrimPrefix (s pre : String) : String :=
  if pre.data.isPrefixOf s.data then String.mk (s.data.drop pre.data.length) else s

/-- strings.HasSuffix. -/
def goHasSuffix (s suf : String) : Bool :=
  suf.data.isSuffixOf s.data

/-- strings.TrimSuffix. -/
def goTrimSuffix (s suf : String) : String :=
  if suf.data.isSuffixOf s.data then
    String.mk (s.data.take (s.data.length - suf.data.length))
  else s

/-- Split of a character list at every occurrence of c (Split("") is [""]). -/
def splitChar (c : Char) : List Char → List (List Char)
  | [] => [[]]
  | a :: rest =>
    match splitChar c rest with
    | [] => [[a]]
    | h :: t => if a = c then [] :: h :: t else (a :: h) :: t

/-- strings.Split; the source only splits on the single-character
separator "|". -/
def goSplit (s sep : String) : List String :=
  match sep.data with
  | [c] => (splitChar c s.data).map String.mk
  | _ => [s]

/-- Numeric value of a digit list. -/
def digitsToNat (ds : List Char) : Nat :=
  ds.foldl (fun a c => a * 10 + (c.toNat - 48)) 0

/-- strconv.Atoi: optional sign followed by one or more digits
(overflow not modelled; the claims use small values). -/
def goAtoi (s : String) : Option Int :=
  match s.data with
  | [] => none
  | c :: rest =>
    let (sign, digits) : Int × List Char :=
      if c = '-' then (-1, rest)
      else if c = '+' then (1, rest)
      else (1, c :: rest)
    if digits.isEmpty ∨ ¬ digits.all Char.isDigit then none
    else some (sign * (digitsToNat digits : Int))

/-- The unit table of time.ParseDuration, in nanoseconds. -/
def unitNs (u : String) : Option Int :=
  if u = "ns" then some 1
  else if u = "us" then some 1000
  else if u = "µs" then some 1000
  else if u = "μs" then some 1000
  else if u = "ms" then some 1000000
  else if u = "s" then some 1000000000
  else if u = "m" then some 60000000000
  else if u = "h" then some 3600000000000
  else none

/-- One pass of time.ParseDuration's loop: leading digits, optional
fractional digits, then a unit (scan until the next digit or dot).
Fuel bounds the recursion; every successful iteration consumes at least
one character.  Go computes the fractional contribution in float64;
here it is exact integer arithmetic truncated toward zero, which agrees
on all inputs the claims exercise. -/
def parseDurationLoop : Nat → List Char → Int → Option Int
  | 0, _, _ => none
  | _, [], acc => some acc
  | fuel + 1, cs, acc =>
    let intDs := cs.takeWhile Char.isDigit
    let rest1 := cs.dropWhile Char.isDigit
    let pre := ¬ intDs.isEmpty
    let (post, fracDs, rest2) : Bool × List Char × List Char :=
      match rest1 with
      | '.' :: r => (¬ (r.takeWhile Char.isDigit).isEmpty,
                     r.takeWhile Char.isDigit, r.dropWhile Char.isDigit)
      | _ => (false, [], rest1)
    if ¬ pre ∧ ¬ post then none
    else
      let unitCs := rest2.takeWhile (fun c => ¬ (c.isDigit ∨ c = '.'))
      let rest3 := rest2.dropWhile (fun c => ¬ (c.isDigit ∨ c = '.'))
      match unitNs (String.mk unitCs) with
      | none => none
      | some u =>
        let v : Int := (digitsToNat intDs : Int) * u
        let f : Int :=
          if fracDs.isEmpty then 0
          else Int.tdiv ((digitsToNat fracDs : Int) * u) ((10 : Int) ^ fracDs.length)
        parseDurationLoop fuel rest3 (acc + v + f)

/-- time.ParseDuration, returning nanoseconds. -/
def goParseDuration (s : String) : Option Int :=
  let cs := s.data
  let (neg, cs1) : Bool × List Char :=
    match cs with
    | '-' :: r => (true, r)
    | '+' :: r => (false, r)
    | _ => (false, cs)
  if cs1 = ['0'] then some 0
  else if cs1.isEmpty then none
  else
    match parseDurationLoop (cs1.length + 1) cs1 0 with
    | none => none
    | some d => some (if neg then -d else d)

/-- Nanoseconds per second (time.Second). -/
def nsPerSec : Int := 1000000000

/-- 24 * time.Hour, the default lease duration. -/
def hours24 : Int := 86400 * nsPerSec

/-- int(d.Seconds()): truncation toward zero. -/
def durSeconds (d : Int) : Int := Int.tdiv d nsPerSec

/-! ### Envelope map primitives (Go map writes and reads) -/

/-- response[k] = v on a Go map, modelled as overwrite-or-append. -/
def mset (m : JObj) (k : String) (v : JValue) : JObj :=
  if (m.find? (fun p => p.1 == k)).isSome then
    m.map (fun p => if p.1 == k then (p.1, v) else p)
  else
    m ++ [(k, v)]

/-- Read of a Go map key. -/
def mlookup (m : JObj) (k : String) : Option JValue :=
  (m.find? (fun p => p.1 == k)).map (fun p => p.2)

/-! ### Handler.HandleRequest (handlers, lines 79-240) -/

/-- Body decode step of HandleRequest: the body is read and JSON-decoded
only for POST and PUT; a non-empty malformed body is a client error and
an empty body is no data (lines 90-104).  The Go message is
"failed to parse JSON: %v"; the model keeps the fixed prefix. -/
def decodeBody (r : HttpRequest) : Except String (Option JObj) :=
  if r.method == "POST" || r.method == "PUT" then
    match r.body with
    | .empty => .ok none
    | .malformed => .error "failed to parse JSON"
    | .json o => .ok (some o)
  else .ok none

/-- Path normalization: strip the leading /v1/ then the mount prefix
(lines 106-108). -/
def normPath (mountPath urlPath : String) : String :=
  goTrimPrefix (goTrimPrefix urlPath "/v1/") (mountPath ++ "/")

/-- Operation resolution (lines 110-145): lifecycle suffix or operation
query parameter first, in the order revoke, renew, rollback, rotate,
stripping the matching suffix; otherwise the HTTP verb table; none
models the unsupported-method rejection. -/
def resolveOperation (path : String) (queryOp : String) (method : String) :
    Option (Operation × String) :=
  if goHasSuffix path "/revoke" || queryOp == "revoke" then
    some (.revoke, goTrimSuffix path "/revoke")
  else if goHasSuffix path "/renew" || queryOp == "renew" then
    some (.renew, goTrimSuffix path "/renew")
  else if goHasSuffix path "/rollback" || queryOp == "rollback" then
    some (.rollback, goTrimSuffix path "/rollback")
  else if goHasSuffix path "/rotate" || queryOp == "rotate" then
    some (.rotation, goTrimSuffix path "/rotate")
  else if method == "GET" then some (.read, path)
  else if method == "POST" || method == "PUT" then some (.update, path)
  else if method == "DELETE" then some (.delete, path)
  else if method == "LIST" then some (.list, path)
  else none

/-- generateLeaseID (lines 351-359): mountPath/path/randomSuffix with the
leading slash of the mount stripped; the hex of 12 random bytes is the
rand oracle. -/
def mkLeaseID (mountPath path rand : String) : String :=
  goTrimPrefix mountPath "/" ++ "/" ++ path ++ "/" ++ rand

/-- Lease duration choice (lines 196-199): default 24 hours unless the
response secret specifies a positive TTL. -/
def leaseDurationOf (resp : LResponse) : Int :=
  match resp.secret with
  | some s => if s.ttl > 0 then s.ttl else hours24
  | none => hours24

/-- The auth entry built at lines 179-186 (client_token is formatted from
the wall clock in Go; the model renders the numeric clock). -/
def authObj (au : Auth) (now : Int) : JValue :=
  .obj [("client_token", .str ("mock-token-" ++ toString now)),
        ("accessor", .str "mock-accessor"),
        ("policies", .arr (au.policies.map .str)),
        ("metadata", .obj (au.metadata.map (fun p => (p.1, .str p.2)))),
        ("lease_duration", .num (durSeconds au.ttl)),
        ("renewable", .bool au.renewable)]

/-- Success envelope construction of HandleRequest (lines 174-235):
returns the envelope fields and the lease table after any minting. -/
def buildSuccess (mountPath : String) (leases0 : Leases) (operation : Operation)
    (path : String) (respOpt : Option LResponse) (now : Int) (rand reqId : String) :
    JObj × Leases :=
  match respOpt with
  | none => ([], leases0)
  | some resp =>
    let r1 : JObj :=
      match resp.auth with
      | some au => mset [] "auth" (authObj au now)
      | none => []
    let pr2 : JObj × Leases :=
      match resp.data with
      | some d =>
        let r2 := mset r1 "data" (.obj d)
        if operation = Operation.read then
          let leaseID := mkLeaseID mountPath path rand
          let dur := leaseDurationOf resp
          let info : LeaseInfo :=
            ⟨leaseID, path, d, resp.secret, now, now + dur, dur, true⟩
          (mset (mset (mset r2 "lease_id" (.str leaseID))
              "lease_duration" (.num (durSeconds dur)))
              "renewable" (.bool true),
           lset leases0 leaseID info)
        else (r2, leases0)
      | none => (r1, leases0)
    let r3 : JObj :=
      if resp.warnings.length > 0 then
        mset pr2.1 "warnings" (.arr (resp.warnings.map .str))
      else pr2.1
    let r4 :=
      mset (mset (mset (mset r3 "request_id" (.str reqId))
        "wrap_info" .null) "auth" .null)
        "mount_type" (.str (goTrimPrefix mountPath "/"))
    (r4, pr2.2)

/-- Handler.HandleRequest: 503 before a backend is set; body decode;
path normalization; operation resolution; dispatch; error mapping
(permission denied to 403, others to 500); envelope on success. -/
def handleRequest (st : HandlerState) (r : HttpRequest) (now : Int)
    (rand reqId : String) : Outcome :=
  match st.backend with
  | none => ⟨vaultError 503 "plugin not started", st.leases, []⟩
  | some backend =>
    match decodeBody r with
    | .error msg => ⟨vaultError 400 msg, st.leases, []⟩
    | .ok requestData =>
      let path0 := normPath st.mountPath r.urlPath
      match resolveOperation path0 r.queryOperation r.method with
      | none => ⟨vaultError 405 "unsupported method", st.leases, []⟩
      | some (operation, path) =>
        let req : LogicalRequest := ⟨operation, path, none, requestData⟩
        match backend req with
        | .error .permissionDenied =>
          ⟨vaultError 403 "permission denied", st.leases, [req]⟩
        | .error (.other msg) => ⟨vaultError 500 msg, st.leases, [req]⟩
        | .ok respOpt =>
          let pr := buildSuccess st.mountPath st.leases operation path respOpt
            now rand reqId
          ⟨⟨200, .envelope pr.1, ctJson⟩, pr.2, [req]⟩

/-! ### Handler.HandleLeaseRenew (handlers, lines 381-500) -/

/-- Body decode shared by the lease endpoints (body read regardless of
content, JSON object expected when non-empty). -/
def bodyToData (b : Body) : Except String (Option JObj) :=
  match b with
  | .empty => .ok none
  | .malformed => .error "failed to parse JSON"
  | .json o => .ok (some o)

/-- requestData["lease_id"].(string) followed by the ok/empty check
(lines 403-407 and 525-529): a missing key, a non-string value, or the
empty string are all rejected. -/
def extractLeaseId (d : Option JObj) : Option String :=
  match d with
  | none => none
  | some o =>
    match mlookup o "lease_id" with
    | some (.str s) => if s == "" then none else some s
    | _ => none

/-- Increment computation (lines 410-428): a JSON number becomes that
many seconds (Go truncates the float64 first); a string is tried as a
Go duration then as an integer number of seconds; anything else leaves
zero; zero defaults to 24 hours. -/
def computeIncrement (v : Option JValue) : Int :=
  let inc : Int :=
    match v with
    | some (.num n) => n * nsPerSec
    | some (.str s) =>
      match goParseDuration s with
      | some d => d
      | none =>
        match goAtoi s with
        | some k => k * nsPerSec
        | none => 0
    | _ => 0
  if inc == 0 then hours24 else inc

/-- The renewal notification request built at lines 461-471. -/
def renewReqOf (leaseID : String) (li : LeaseInfo) (increment : Int) :
    LogicalRequest :=
  ⟨.renew, li.path, li.secret,
   some [("lease_id", .str leaseID),
         ("increment", .num (durSeconds increment)),
         ("issue_time", .time li.issueTime)]⟩

/-- Handler.HandleLeaseRenew: method gate, body parse, lease_id and
increment extraction, the three lease checks, notify-then-commit.
time.Now().After(expire) is the strict comparison now > expire. -/
def handleLeaseRenew (st : HandlerState) (r : HttpRequest) (now : Int) : Outcome :=
  if ¬ (r.method == "PUT" || r.method == "POST") then
    ⟨vaultError 405 "method not allowed", st.leases, []⟩
  else
    match bodyToData r.body with
    | .error msg => ⟨vaultError 400 msg, st.leases, []⟩
    | .ok requestData =>
      match extractLeaseId requestData with
      | none => ⟨vaultError 400 "lease_id is required", st.leases, []⟩
      | some leaseID =>
        let increment := computeIncrement (mlookup (requestData.getD []) "increment")
        match lget st.leases leaseID with
        | none => ⟨vaultError 404 "lease not found", st.leases, []⟩
        | some li =>
          if ¬ li.renewable then
            ⟨vaultError 400 "lease is not renewable", st.leases, []⟩
          else if now > li.expireTime then
            ⟨vaultError 400 "lease has expired", st.leases, []⟩
          else
            let newExpire := now + increment
            let renewReq := renewReqOf leaseID li increment
            let commit : Outcome :=
              ⟨⟨200, .envelope [("lease_id", .str leaseID),
                  ("lease_duration", .num (durSeconds increment)),
                  ("renewable", .bool true),
                  ("data", .obj li.data)], ctJson⟩,
               lupdate st.leases leaseID newExpire increment,
               [renewReq]⟩
            match st.backend with
            | none => { commit with backendCalls := [] }
            | some backend =>
              match backend renewReq with
              | .error e =>
                ⟨vaultError 500 ("failed to renew lease: " ++ e.message),
                 st.leases, [renewReq]⟩
              | .ok _ => commit

/-! ### Handler.HandleLeaseRevoke / HandleLeaseRevokeByPath
(handlers, lines 503-572 and 575-632) -/

/-- The revocation notification request built at lines 550-560 / 610-620. -/
def revokeReqOf (leaseID : String) (li : LeaseInfo) : LogicalRequest :=
  ⟨.revoke, li.path, li.secret,
   some [("lease_id", .str leaseID),
         ("issue_time", .time li.issueTime),
         ("data", .obj li.data)]⟩

/-- Shared core of both revocation entry points: atomic lookup-and-delete
under the lease lock, 404 when absent, otherwise best-effort notification
(the backend result is ignored) and 204 with no body. -/
def revokeCore (st : HandlerState) (leaseID : String) : Outcome :=
  match lget st.leases leaseID with
  | none => ⟨vaultError 404 "lease not found", st.leases, []⟩
  | some li =>
    let calls : List LogicalRequest :=
      match st.backend with
      | some _ => [revokeReqOf leaseID li]
      | none => []
    ⟨⟨204, .noBody, none⟩, ldel st.leases leaseID, calls⟩

/-- Handler.HandleLeaseRevoke: body form. -/
def handleLeaseRevoke (st : HandlerState) (r : HttpRequest) : Outcome :=
  if ¬ (r.method == "PUT" || r.method == "POST") then
    ⟨vaultError 405 "method not allowed", st.leases, []⟩
  else
    match bodyToData r.body with
    | .error msg => ⟨vaultError 400 msg, st.leases, []⟩
    | .ok requestData =>
      match extractLeaseId requestData with
      | none => ⟨vaultError 400 "lease_id is required", st.leases, []⟩
      | some leaseID => revokeCore st leaseID

/-- Handler.HandleLeaseRevokeByPath: the lease id is the URL path
remainder after /v1/sys/leases/revoke/. -/
def handleLeaseRevokeByPath (st : HandlerState) (r : HttpRequest) : Outcome :=
  if ¬ (r.method == "PUT" || r.method == "POST") then
    ⟨vaultError 405 "method not allowed", st.leases, []⟩
  else
    let path := goTrimPrefix r.urlPath "/v1/sys/leases/revoke/"
    if path == "" then
      ⟨vaultError 400 "lease_id is required in path", st.leases, []⟩
    else revokeCore st path

/-! ### PluginHost.Start descriptor parsing (plugin_host.go,
lines 99-117 attach mode and 183-199 launch mode) -/

/-- The parsed connection data taken from a descriptor. -/
structure Descriptor where
  protoVersion : Int
  network : String
  addr : String
  protoType : String

/-- The field list of a descriptor: strings.Split after stripping one
trailing delimiter. -/
def descriptorFields (s : String) : List String :=
  goSplit (goTrimSuffix s "|") "|"

/-- Descriptor parsing as PluginHost.Start performs it: reject fewer than
five fields, otherwise take fields 1-4 (the Atoi error on the version is
discarded in the source, defaulting to 0). -/
def parseDescriptor (s : String) : Option Descriptor :=
  let parts := descriptorFields s
  if parts.length < 5 then none
  else some ⟨(goAtoi (parts.getD 1 "")).getD 0,
             parts.getD 2 "", parts.getD 3 "", parts.getD 4 ""⟩

/-- The attach-mode parse phase of Start: a parse failure aborts Start
with an error before any connection is attempted. -/
def startAttachParse (s : String) : Except String Descriptor :=
  match parseDescriptor s with
  | none => .error
      "invalid attach string format, expected 'version|maxversion|network|socket|protocol|'"
  | some d => .ok d

/-! ### Interleaved renewal/revocation micro-model for the concurrency
claim.  HandleLeaseRenew touches the lease table in two separate
critical sections: the lookup (lines 430-432) and the commit
(lines 482-485); HandleLeaseRevoke performs its lookup and delete in a
single critical section (lines 531-536).  Each function below is one
critical section. -/

/-- Renewal's first critical section (lines 430-432): look the lease up
and release the lock. -/
def renewLookup (t : Leases) (id : String) : Option LeaseInfo :=
  lget t id

/-- Revocation's single critical section (lines 531-536): look up and
delete atomically. -/
def revokeAtomic (t : Leases) (id : String) : Option LeaseInfo × Leases :=
  (lget t id, if (lget t id).isSome then ldel t id else t)

/-- Renewal's commit critical section (lines 482-485):
h.leases[leaseID].ExpireTime = newExpire; h.leases[leaseID].Duration =
increment.  When the key is no longer present the Go map index yields a
nil *LeaseInfo and the field store panics; none models that crash. -/
def renewCommit (t : Leases) (id : String) (newExpire increment : Int) :
    Option Leases :=
  if (lget t id).isSome then some (lupdate t id newExpire increment) else none

/-! ### Helper lemmas -/

theorem goTrimPrefix_append (p s : String) : goTrimPrefix (p ++ s) p = s := by
  have hdata : (p ++ s).data = p.data ++ s.data := rfl
  have hpre : p.data.isPrefixOf (p.data ++ s.data) = true := by
    simp [List.isPrefixOf_iff_prefix]
  simp only [goTrimPrefix, hdata, hpre, if_pos, List.drop_left]

theorem lget_cons (a : String × LeaseInfo) (t : Leases) (id : String) :
    lget (a :: t) id = if a.1 = id then some a.2 else lget t id := by
  by_cases h : a.1 = id
  · simp [lget, List.find?_cons_of_pos, h]
  · simp [lget, List.find?_cons_of_neg, h]

theorem lget_ldel_self (t : Leases) (id : String) : lget (ldel t id) id = none := by
  induction t with
  | nil => rfl
  | cons a t ih =>
    by_cases h : a.1 = id
    · simpa [ldel, List.filter_cons, h] using ih
    · simp only [ldel, List.filter_cons, h] at ih ⊢
      simpa [lget_cons, h] using ih

theorem lget_lupdate_self (t : Leases) (id : String) (e d : Int) (li : LeaseInfo)
    (h : lget t id = some li) :
    lget (lupdate t id e d) id = some { li with expireTime := e, duration := d } := by
  induction t with
  | nil => simp [lget] at h
  | cons a t ih =>
    by_cases ha : a.1 = id
    · rw [lget_cons, if_pos ha] at h
      injection h with h2
      simp [lupdate, List.map_cons, ha, lget_cons, h2]
    · rw [lget_cons, if_neg ha] at h
      simpa [lupdate, List.map_cons, ha, lget_cons] using ih h

theorem lupdate_idem (t : Leases) (id : String) (e d : Int) :
    lupdate (lupdate t id e d) id e d = lupdate t id e d := by
  induction t with
  | nil => rfl
  | cons a t ih =>
    by_cases ha : a.1 = id
    · simpa [lupdate, List.map_cons, ha] using ih
    · simpa [lupdate, List.map_cons, ha] using ih

/-! ### Claim theorems -/

/-- C8 counterexample: the claim says a descriptor parses successfully iff
it has exactly five pipe-delimited fields after stripping a trailing
delimiter; this six-field descriptor nevertheless parses successfully. -/
theorem c8_counterexample :
    (descriptorFields "1|4|unix|/tmp/sock|grpc|x|").length = 6 ∧
    (parseDescriptor "1|4|unix|/tmp/sock|grpc|x|").isSome = true := by
  exact ⟨rfl, rfl⟩

/-- C8 (amended): a descriptor is parsed successfully iff, after stripping
a trailing delimiter, it has at least five pipe-delimited fields; with
fewer than five fields, the attach-mode parse phase of Start aborts with
the invalid-format error. -/
theorem c8_amended (s : String) :
    ((parseDescriptor s).isSome ↔ 5 ≤ (descriptorFields s).length) ∧
    ((descriptorFields s).length < 5 →
      startAttachParse s = .error
        "invalid attach string format, expected 'version|maxversion|network|socket|protocol|'") := by
  constructor
  · by_cases h : (descriptorFields s).length < 5
    · simp [parseDescriptor, h]
    · simp [parseDescriptor, h]
      omega
  · intro h
    simp [startAttachParse, parseDescriptor, h]

/-- C8 witness: a two-field descriptor is rejected and aborts Start, and a
five-field descriptor parses. -/
theorem c8_amended_witness :
    (descriptorFields "1|4|").length < 5 ∧
    startAttachParse "1|4|" = .error
      "invalid attach string format, expected 'version|maxversion|network|socket|protocol|'" ∧
    (parseDescriptor "1|4|unix|/tmp/sock|grpc|").isSome := by
  refine ⟨by decide, (c8_amended "1|4|").2 (by decide), ?_⟩
  exact (c8_amended "1|4|unix|/tmp/sock|grpc|").1.mpr (by decide)

/-- C9: the lease-table lock serializes each individual critical section,
but HandleLeaseRenew's lookup and commit are separate critical sections.
At this concrete table, a revocation interleaved between them removes the
record, and the commit then indexes a deleted key: the Go code stores
through the nil *LeaseInfo returned by the map and panics (modelled as
none) — neither completing before the revocation nor observing
"lease not found", contradicting the claimed serialization. -/
theorem c9_torn_renewal :
    renewLookup [("plugin/x/abc", ⟨"plugin/x/abc", "x", [], none, 0, hours24, hours24, true⟩)]
      "plugin/x/abc"
      = some ⟨"plugin/x/abc", "x", [], none, 0, hours24, hours24, true⟩ ∧
    revokeAtomic [("plugin/x/abc", ⟨"plugin/x/abc", "x", [], none, 0, hours24, hours24, true⟩)]
      "plugin/x/abc"
      = (some ⟨"plugin/x/abc", "x", [], none, 0, hours24, hours24, true⟩, []) ∧
    renewCommit [] "plugin/x/abc" (2 * hours24) hours24 = none := by
  exact ⟨rfl, rfl, rfl⟩

/-- C10: for the same lease id, the body form and the path-embedded form
of revocation return the same HTTP status, issue the same backend
notifications, and leave the same lease table, for every handler state
and HTTP method. -/
theorem c10_revoke_equivalence (st : HandlerState) (m id : String) :
    ((handleLeaseRevoke st
        ⟨m, "/v1/sys/leases/revoke", "", .json [("lease_id", .str id)]⟩).resp.status
      = (handleLeaseRevokeByPath st
        ⟨m, "/v1/sys/leases/revoke/" ++ id, "", .empty⟩).resp.status) ∧
    ((handleLeaseRevoke st
        ⟨m, "/v1/sys/leases/revoke", "", .json [("lease_id", .str id)]⟩).backendCalls
      = (handleLeaseRevokeByPath st
        ⟨m, "/v1/sys/leases/revoke/" ++ id, "", .empty⟩).backendCalls) ∧
    ((handleLeaseRevoke st
        ⟨m, "/v1/sys/leases/revoke", "", .json [("lease_id", .str id)]⟩).leases
      = (handleLeaseRevokeByPath st
        ⟨m, "/v1/sys/leases/revoke/" ++ id, "", .empty⟩).leases) := by
  have hpath : goTrimPrefix ("/v1/sys/leases/revoke/" ++ id) "/v1/sys/leases/revoke/" = id :=
    goTrimPrefix_append _ _
  by_cases hm : (m == "PUT" || m == "POST") = true
  · by_cases hid : id = ""
    · subst hid
      have hp0 : goTrimPrefix "/v1/sys/leases/revoke/" "/v1/sys/leases/revoke/" = "" := by
        decide
      simp [handleLeaseRevoke, handleLeaseRevokeByPath, hm, hp0, bodyToData,
        extractLeaseId, mlookup, List.find?, vaultError]
    · have hid' : (id == "") = false := by simp [hid]
      simp [handleLeaseRevoke, handleLeaseRevokeByPath, hm, hpath, bodyToData,
        extractLeaseId, mlookup, List.find?, hid', hid]
  · simp [handleLeaseRevoke, handleLeaseRevokeByPath, hm]

/-- C1 counterexample: with a backend published, a request that yielded
503 before Start (any request does, since the backend check precedes all
parsing) is not always forwarded: a PATCH request is rejected 405 with no
backend call, refuting the claim that after Start the same request is
forwarded to the backend. -/
theorem c1_counterexample :
    (handleRequest ⟨none, "plugin", []⟩ ⟨"PATCH", "/v1/plugin/x", "", .empty⟩
        0 "r" "q").resp.status = 503 ∧
    (handleRequest ⟨some (fun _ => .ok none), "plugin", []⟩
        ⟨"PATCH", "/v1/plugin/x", "", .empty⟩ 0 "r" "q").resp.status = 405 ∧
    (handleRequest ⟨some (fun _ => .ok none), "plugin", []⟩
        ⟨"PATCH", "/v1/plugin/x", "", .empty⟩ 0 "r" "q").backendCalls = [] := by
  refine ⟨rfl, ?_, ?_⟩ <;> rfl

/-- C1 (amended): with no backend reference set, every plugin-path request
gets 503 with the "plugin not started" message and no backend call; once
a backend is published the same request never yields 503, and it is
forwarded to the backend (exactly one call, carrying the resolved
operation, normalized path and decoded body) unless it is rejected
before dispatch as a client error (malformed JSON body, 400) or an
unsupported method (405). -/
theorem c1_amended (st : HandlerState) (r : HttpRequest) (now : Int)
    (rand reqId : String) :
    (st.backend = none →
      handleRequest st r now rand reqId =
        ⟨vaultError 503 "plugin not started", st.leases, []⟩) ∧
    (∀ b, st.backend = some b →
      (handleRequest st r now rand reqId).resp.status ≠ 503 ∧
      ∀ bd op p, decodeBody r = .ok bd →
        resolveOperation (normPath st.mountPath r.urlPath) r.queryOperation r.method
          = some (op, p) →
        (handleRequest st r now rand reqId).backendCalls = [⟨op, p, none, bd⟩]) := by
  constructor
  · intro h
    simp [handleRequest, h]
  · intro b hb
    constructor
    · simp only [handleRequest, hb]
      cases hd : decodeBody r with
      | error msg => simp [vaultError]
      | ok bd =>
        cases hr : resolveOperation (normPath st.mountPath r.urlPath)
            r.queryOperation r.method with
        | none => simp [vaultError]
        | some opp =>
          cases hbk : b ⟨opp.1, opp.2, none, bd⟩ with
          | error e =>
            cases e <;> simp [vaultError, hbk]
          | ok respOpt => simp [vaultError, hbk]
    · intro bd op p hd hr
      simp only [handleRequest, hb, hd, hr]
      cases hbk : b ⟨op, p, none, bd⟩ with
      | error e => cases e <;> simp
      | ok respOpt => simp

/-- C1 witness: a GET to a plugin path gets 503 with no backend, and with
a backend set it is forwarded (one call with the read operation on the
normalized path) and is not a 503. -/
theorem c1_amended_witness :
    handleRequest ⟨none, "plugin", []⟩ ⟨"GET", "/v1/plugin/x", "", .empty⟩ 0 "r" "q"
      = ⟨vaultError 503 "plugin not started", [], []⟩ ∧
    (handleRequest ⟨some (fun _ => .ok none), "plugin", []⟩
        ⟨"GET", "/v1/plugin/x", "", .empty⟩ 0 "r" "q").resp.status ≠ 503 ∧
    (handleRequest ⟨some (fun _ => .ok none), "plugin", []⟩
        ⟨"GET", "/v1/plugin/x", "", .empty⟩ 0 "r" "q").backendCalls
      = [⟨.read, "x", none, none⟩] := by
  refine ⟨(c1_amended ⟨none, "plugin", []⟩ ⟨"GET", "/v1/plugin/x", "", .empty⟩
      0 "r" "q").1 rfl, ?_, ?_⟩
  · exact ((c1_amended ⟨some (fun _ => .ok none), "plugin", []⟩
      ⟨"GET", "/v1/plugin/x", "", .empty⟩ 0 "r" "q").2 (fun _ => .ok none) rfl).1
  · exact ((c1_amended ⟨some (fun _ => .ok none), "plugin", []⟩
      ⟨"GET", "/v1/plugin/x", "", .empty⟩ 0 "r" "q").2 (fun _ => .ok none) rfl).2
      none .read "x" rfl rfl

/-- C2: operation resolution follows the claimed precedence: the
lifecycle path suffixes or the equivalent operation query parameter, in
the order revoke, renew, rollback, rotate (the matching suffix stripped
from the path); otherwise GET reads, POST and PUT update, DELETE
deletes, a literal LIST verb lists, and any other verb is rejected,
which HandleRequest surfaces as HTTP 405 once a backend is set. -/
theorem c2_operation_resolution (path q m : String) :
    ((goHasSuffix path "/revoke" = true ∨ q = "revoke") →
      resolveOperation path q m = some (.revoke, goTrimSuffix path "/revoke")) ∧
    (¬ (goHasSuffix path "/revoke" = true ∨ q = "revoke") →
      (goHasSuffix path "/renew" = true ∨ q = "renew") →
      resolveOperation path q m = some (.renew, goTrimSuffix path "/renew")) ∧
    (¬ (goHasSuffix path "/revoke" = true ∨ q = "revoke") →
      ¬ (goHasSuffix path "/renew" = true ∨ q = "renew") →
      (goHasSuffix path "/rollback" = true ∨ q = "rollback") →
      resolveOperation path q m = some (.rollback, goTrimSuffix path "/rollback")) ∧
    (¬ (goHasSuffix path "/revoke" = true ∨ q = "revoke") →
      ¬ (goHasSuffix path "/renew" = true ∨ q = "renew") →
      ¬ (goHasSuffix path "/rollback" = true ∨ q = "rollback") →
      (goHasSuffix path "/rotate" = true ∨ q = "rotate") →
      resolveOperation path q m = some (.rotation, goTrimSuffix path "/rotate")) ∧
    (¬ (goHasSuffix path "/revoke" = true ∨ q = "revoke") →
      ¬ (goHasSuffix path "/renew" = true ∨ q = "renew") →
      ¬ (goHasSuffix path "/rollback" = true ∨ q = "rollback") →
      ¬ (goHasSuffix path "/rotate" = true ∨ q = "rotate") →
      (m = "GET" → resolveOperation path q m = some (.read, path)) ∧
      (m = "POST" ∨ m = "PUT" → resolveOperation path q m = some (.update, path)) ∧
      (m = "DELETE" → resolveOperation path q m = some (.delete, path)) ∧
      (m = "LIST" → resolveOperation path q m = some (.list, path)) ∧
      (m ≠ "GET" → m ≠ "POST" → m ≠ "PUT" → m ≠ "DELETE" → m ≠ "LIST" →
        resolveOperation path q m = none)) ∧
    (∀ st b r now rand reqId bd, st.backend = some b → decodeBody r = .ok bd →
      resolveOperation (normPath st.mountPath r.urlPath) r.queryOperation r.method
        = none →
      handleRequest st r now rand reqId =
        ⟨vaultError 405 "unsupported method", st.leases, []⟩) := by
  have hcond : ∀ (suf op : String),
      (goHasSuffix path suf = true ∨ q = op) →
      (goHasSuffix path suf || q == op) = true := by
    intro suf op h
    rcases h with h | h <;> simp [h]
  have hcondn : ∀ (suf op : String),
      ¬ (goHasSuffix path suf = true ∨ q = op) →
      (goHasSuffix path suf || q == op) = false := by
    intro suf op h
    push_neg at h
    simp [h.1, h.2]
  refine ⟨?_, ?_, ?_, ?_, ?_, ?_⟩
  · intro h1
    simp [resolveOperation, hcond _ _ h1]
  · intro h1 h2
    simp [resolveOperation, hcondn _ _ h1, hcond _ _ h2]
  · intro h1 h2 h3
    simp [resolveOperation, hcondn _ _ h1, hcondn _ _ h2, hcond _ _ h3]
  · intro h1 h2 h3 h4
    simp [resolveOperation, hcondn _ _ h1, hcondn _ _ h2, hcondn _ _ h3,
      hcond _ _ h4]
  · intro h1 h2 h3 h4
    have e1 := hcondn _ _ h1
    have e2 := hcondn _ _ h2
    have e3 := hcondn _ _ h3
    have e4 := hcondn _ _ h4
    refine ⟨?_, ?_, ?_, ?_, ?_⟩
    · intro hm
      simp [resolveOperation, e1, e2, e3, e4, hm]
    · intro hm
      rcases hm with hm | hm <;> simp [resolveOperation, e1, e2, e3, e4, hm]
    · intro hm
      have : (m == "POST") = false := by
        simp
        intro h
        rw [h] at hm
        exact absurd hm (by decide)
      simp [resolveOperation, e1, e2, e3, e4, hm]
    · intro hm
      simp [resolveOperation, e1, e2, e3, e4, hm]
    · intro hg hpo hpu hd hl
      simp [resolveOperation, e1, e2, e3, e4, hg, hpo, hpu, hd, hl]
  · intro st b r now rand reqId bd hb hd hr
    simp [handleRequest, hb, hd, hr]

/-- C2 witness: a POST whose path ends in /renew resolves to the renew
operation with the suffix stripped; a plain GET resolves to read; a PATCH
to a plugin path with a backend set is rejected 405. -/
theorem c2_operation_resolution_witness :
    resolveOperation "creds/x/renew" "" "POST" = some (.renew, "creds/x") ∧
    resolveOperation "x" "" "GET" = some (.read, "x") ∧
    handleRequest ⟨some (fun _ => .ok none), "plugin", []⟩
        ⟨"PATCH", "/v1/plugin/x", "", .empty⟩ 0 "r" "q"
      = ⟨vaultError 405 "unsupported method", [], []⟩ := by
  refine ⟨?_, ?_, ?_⟩
  · have e : goTrimSuffix "creds/x/renew" "/renew" = "creds/x" := by decide
    have h := (c2_operation_resolution "creds/x/renew" "" "POST").2.1
      (by decide) (Or.inl (by decide))
    rw [e] at h
    exact h
  · exact ((c2_operation_resolution "x" "" "GET").2.2.2.2.1
      (by decide) (by decide) (by decide) (by decide)).1 rfl
  · exact (c2_operation_resolution "x" "" "PATCH").2.2.2.2.2
      ⟨some (fun _ => .ok none), "plugin", []⟩ (fun _ => .ok none)
      ⟨"PATCH", "/v1/plugin/x", "", .empty⟩ 0 "r" "q" none rfl rfl rfl

/-- C5: both revocation entry points reject a missing lease id with 400
and an unknown lease with 404; a known lease is removed from the table
immediately, the backend is notified with a revoke request carrying the
stored path, secret and data, and 204 is returned regardless of the
notification result (the outcome does not depend on the backend's
answer); revoking the same id again yields 404. -/
theorem c5_revoke_behavior (st : HandlerState) (b : Backend) (r : HttpRequest)
    (o : JObj) (hb : st.backend = some b) (hm : r.method = "PUT")
    (hbody : r.body = .json o) :
    (extractLeaseId (some o) = none →
      handleLeaseRevoke st r = ⟨vaultError 400 "lease_id is required", st.leases, []⟩) ∧
    (handleLeaseRevokeByPath st ⟨"PUT", "/v1/sys/leases/revoke/", "", .empty⟩
      = ⟨vaultError 400 "lease_id is required in path", st.leases, []⟩) ∧
    (∀ id, extractLeaseId (some o) = some id →
      (lget st.leases id = none →
        handleLeaseRevoke st r = ⟨vaultError 404 "lease not found", st.leases, []⟩) ∧
      (∀ li, lget st.leases id = some li →
        handleLeaseRevoke st r =
          ⟨⟨204, .noBody, none⟩, ldel st.leases id, [revokeReqOf id li]⟩ ∧
        handleLeaseRevoke { st with leases := ldel st.leases id } r =
          ⟨vaultError 404 "lease not found", ldel st.leases id, []⟩)) := by
  have hgate : (r.method == "PUT" || r.method == "POST") = true := by simp [hm]
  refine ⟨?_, ?_, ?_⟩
  · intro h
    simp [handleLeaseRevoke, hgate, hbody, bodyToData, h]
  · have hp0 : goTrimPrefix "/v1/sys/leases/revoke/" "/v1/sys/leases/revoke/" = "" := by
      decide
    simp [handleLeaseRevokeByPath, hp0]
  · intro id hid
    constructor
    · intro hnone
      simp [handleLeaseRevoke, hgate, hbody, bodyToData, hid, revokeCore, hnone]
    · intro li hli
      constructor
      · simp [handleLeaseRevoke, hgate, hbody, bodyToData, hid, revokeCore, hli, hb]
      · simp [handleLeaseRevoke, hgate, hbody, bodyToData, hid, revokeCore,
          lget_ldel_self]

/-- C5 witness: a concrete lease is revoked with 204 (even though the
backend notification errors), the record is gone, and a second revoke of
the same id returns 404. -/
theorem c5_revoke_behavior_witness :
    extractLeaseId (some [("lease_id", .str "L")]) = some "L" ∧
    lget [("L", ⟨"L", "x", [("u", .str "v")], none, 0, hours24, hours24, true⟩)] "L"
      = some ⟨"L", "x", [("u", .str "v")], none, 0, hours24, hours24, true⟩ ∧
    handleLeaseRevoke
      ⟨some (fun _ => .error (.other "boom")), "plugin",
        [("L", ⟨"L", "x", [("u", .str "v")], none, 0, hours24, hours24, true⟩)]⟩
      ⟨"PUT", "/v1/sys/leases/revoke", "", .json [("lease_id", .str "L")]⟩
      = ⟨⟨204, .noBody, none⟩, [],
         [revokeReqOf "L" ⟨"L", "x", [("u", .str "v")], none, 0, hours24, hours24, true⟩]⟩ ∧
    handleLeaseRevoke
      ⟨some (fun _ => .error (.other "boom")), "plugin", []⟩
      ⟨"PUT", "/v1/sys/leases/revoke", "", .json [("lease_id", .str "L")]⟩
      = ⟨vaultError 404 "lease not found", [], []⟩ := by
  refine ⟨rfl, rfl, ?_, ?_⟩
  · exact (((c5_revoke_behavior
      ⟨some (fun _ => .error (.other "boom")), "plugin",
        [("L", ⟨"L", "x", [("u", .str "v")], none, 0, hours24, hours24, true⟩)]⟩
      (fun _ => .error (.other "boom"))
      ⟨"PUT", "/v1/sys/leases/revoke", "", .json [("lease_id", .str "L")]⟩
      [("lease_id", .str "L")] rfl rfl rfl).2.2 "L" rfl).2
      ⟨"L", "x", [("u", .str "v")], none, 0, hours24, hours24, true⟩ rfl).1
  · exact ((c5_revoke_behavior
      ⟨some (fun _ => .error (.other "boom")), "plugin", []⟩
      (fun _ => .error (.other "boom"))
      ⟨"PUT", "/v1/sys/leases/revoke", "", .json [("lease_id", .str "L")]⟩
      [("lease_id", .str "L")] rfl rfl rfl).2.2 "L" rfl).1 rfl

/-- C4: HandleLeaseRenew rejects a missing lease_id with 400, an unknown
lease with 404, a non-renewable lease with 400, and an already-expired
lease (now strictly after expire_time) with 400, each leaving the lease
table untouched; a backend renewal failure surfaces as 500 with the
table untouched; the table is mutated in place (expire_time and duration
updated) exactly when the backend renewal call succeeds. -/
theorem c4_renew_rejections (st : HandlerState) (b : Backend) (r : HttpRequest)
    (o : JObj) (now : Int) (hb : st.backend = some b) (hm : r.method = "PUT")
    (hbody : r.body = .json o) :
    (extractLeaseId (some o) = none →
      handleLeaseRenew st r now =
        ⟨vaultError 400 "lease_id is required", st.leases, []⟩) ∧
    (∀ id, extractLeaseId (some o) = some id →
      (lget st.leases id = none →
        handleLeaseRenew st r now =
          ⟨vaultError 404 "lease not found", st.leases, []⟩) ∧
      (∀ li, lget st.leases id = some li →
        (li.renewable = false →
          handleLeaseRenew st r now =
            ⟨vaultError 400 "lease is not renewable", st.leases, []⟩) ∧
        (li.renewable = true → now > li.expireTime →
          handleLeaseRenew st r now =
            ⟨vaultError 400 "lease has expired", st.leases, []⟩) ∧
        (li.renewable = true → ¬ now > li.expireTime →
          (∀ e, b (renewReqOf id li (computeIncrement (mlookup o "increment")))
              = .error e →
            handleLeaseRenew st r now =
              ⟨vaultError 500 ("failed to renew lease: " ++ e.message), st.leases,
               [renewReqOf id li (computeIncrement (mlookup o "increment"))]⟩) ∧
          (∀ ro, b (renewReqOf id li (computeIncrement (mlookup o "increment")))
              = .ok ro →
            (handleLeaseRenew st r now).leases =
              lupdate st.leases id
                (now + computeIncrement (mlookup o "increment"))
                (computeIncrement (mlookup o "increment")))))) := by
  have hgate : (r.method == "PUT" || r.method == "POST") = true := by simp [hm]
  refine ⟨?_, ?_⟩
  · intro h
    simp [handleLeaseRenew, hgate, hbody, bodyToData, h]
  · intro id hid
    refine ⟨?_, ?_⟩
    · intro hnone
      simp [handleLeaseRenew, hgate, hbody, bodyToData, hid, hnone]
    · intro li hli
      refine ⟨?_, ?_, ?_⟩
      · intro hren
        simp [handleLeaseRenew, hgate, hbody, bodyToData, hid, hli, hren]
      · intro hren hexp
        simp [handleLeaseRenew, hgate, hbody, bodyToData, hid, hli, hren, hexp]
      · intro hren hexp
        constructor
        · intro e hbk
          simp [handleLeaseRenew, hgate, hbody, bodyToData, hid, hli, hren, hexp,
            hb, hbk]
        · intro ro hbk
          simp [handleLeaseRenew, hgate, hbody, bodyToData, hid, hli, hren, hexp,
            hb, hbk]

/-- C4 witness: an unknown lease renews to 404; an expired lease to 400
with the table untouched; a successful renewal mutates the stored lease
in place. -/
theorem c4_renew_rejections_witness :
    handleLeaseRenew ⟨some (fun _ => .ok none), "plugin", []⟩
        ⟨"PUT", "/v1/sys/leases/renew", "", .json [("lease_id", .str "L")]⟩ 0
      = ⟨vaultError 404 "lease not found", [], []⟩ ∧
    handleLeaseRenew ⟨some (fun _ => .ok none), "plugin",
        [("L", ⟨"L", "x", [], none, 0, 0, hours24, true⟩)]⟩
        ⟨"PUT", "/v1/sys/leases/renew", "", .json [("lease_id", .str "L")]⟩ 1
      = ⟨vaultError 400 "lease has expired",
         [("L", ⟨"L", "x", [], none, 0, 0, hours24, true⟩)], []⟩ ∧
    (handleLeaseRenew ⟨some (fun _ => .ok none), "plugin",
        [("L", ⟨"L", "x", [], none, 0, hours24, hours24, true⟩)]⟩
        ⟨"PUT", "/v1/sys/leases/renew", "", .json [("lease_id", .str "L")]⟩ 0).leases
      = lupdate [("L", ⟨"L", "x", [], none, 0, hours24, hours24, true⟩)] "L"
          (0 + hours24) hours24 := by
  refine ⟨?_, ?_, ?_⟩
  · exact ((c4_renew_rejections ⟨some (fun _ => .ok none), "plugin", []⟩
      (fun _ => .ok none)
      ⟨"PUT", "/v1/sys/leases/renew", "", .json [("lease_id", .str "L")]⟩
      [("lease_id", .str "L")] 0 rfl rfl rfl).2 "L" rfl).1 rfl
  · exact ((((c4_renew_rejections ⟨some (fun _ => .ok none), "plugin",
      [("L", ⟨"L", "x", [], none, 0, 0, hours24, true⟩)]⟩
      (fun _ => .ok none)
      ⟨"PUT", "/v1/sys/leases/renew", "", .json [("lease_id", .str "L")]⟩
      [("lease_id", .str "L")] 1 rfl rfl rfl).2 "L" rfl).2
      ⟨"L", "x", [], none, 0, 0, hours24, true⟩ rfl).2.1 rfl (by decide))
  · exact ((((c4_renew_rejections ⟨some (fun _ => .ok none), "plugin",
      [("L", ⟨"L", "x", [], none, 0, hours24, hours24, true⟩)]⟩
      (fun _ => .ok none)
      ⟨"PUT", "/v1/sys/leases/renew", "", .json [("lease_id", .str "L")]⟩
      [("lease_id", .str "L")] 0 rfl rfl rfl).2 "L" rfl).2
      ⟨"L", "x", [], none, 0, hours24, hours24, true⟩ rfl).2.2 rfl
      (by decide)).2 none rfl

/-- C3: a successfully handled request resolved to the read operation
whose backend response carries data mints a lease: the id embeds the
mount, the path and the random suffix; the duration is 24 hours unless
the secret payload carries a positive TTL; the record
(path, data, secret, issue_time now, expire_time now+duration,
renewable true) is stored in the lease table; and lease_id,
lease_duration in seconds, and renewable true are added to the
envelope. -/
theorem c3_lease_minting (st : HandlerState) (b : Backend) (r : HttpRequest)
    (now : Int) (rand reqId : String) (bd : Option JObj) (p : String)
    (resp : LResponse) (d : JObj)
    (hb : st.backend = some b)
    (hdec : decodeBody r = .ok bd)
    (hop : resolveOperation (normPath st.mountPath r.urlPath) r.queryOperation
      r.method = some (.read, p))
    (hcall : b ⟨.read, p, none, bd⟩ = .ok (some resp))
    (hdata : resp.data = some d) :
    (handleRequest st r now rand reqId).resp.status = 200 ∧
    (handleRequest st r now rand reqId).leases =
      lset st.leases (mkLeaseID st.mountPath p rand)
        ⟨mkLeaseID st.mountPath p rand, p, d, resp.secret, now,
         now + leaseDurationOf resp, leaseDurationOf resp, true⟩ ∧
    (∃ env, (handleRequest st r now rand reqId).resp.body = .envelope env ∧
      mlookup env "lease_id" = some (.str (mkLeaseID st.mountPath p rand)) ∧
      mlookup env "lease_duration" = some (.num (durSeconds (leaseDurationOf resp))) ∧
      mlookup env "renewable" = some (.bool true)) ∧
    (∀ s, resp.secret = some s → 0 < s.ttl → leaseDurationOf resp = s.ttl) ∧
    (∀ s, resp.secret = some s → ¬ 0 < s.ttl → leaseDurationOf resp = hours24) ∧
    (resp.secret = none → leaseDurationOf resp = hours24) := by
  obtain ⟨rdata, rsec, rauth, rwarn⟩ := resp
  simp only [LResponse.data] at hdata
  subst hdata
  refine ⟨?_, ?_, ?_, ?_, ?_, ?_⟩
  · simp only [handleRequest, hb, hdec, hop, hcall]
  · simp only [handleRequest, hb, hdec, hop, hcall, buildSuccess]
    cases rauth <;> cases rwarn <;>
      simp [mset, mlookup, lset, mkLeaseID, leaseDurationOf]
  · simp only [handleRequest, hb, hdec, hop, hcall, buildSuccess]
    cases rauth <;> cases rwarn <;>
      exact ⟨_, rfl, by simp [mset, mlookup], by simp [mset, mlookup],
        by simp [mset, mlookup]⟩
  · intro s hs htl
    simp only [LResponse.secret] at hs
    subst hs
    simp [leaseDurationOf, htl]
  · intro s hs htl
    simp only [LResponse.secret] at hs
    subst hs
    simp [leaseDurationOf, htl]
  · intro hs
    simp only [LResponse.secret] at hs
    subst hs
    simp [leaseDurationOf]

/-- C3 witness: a GET whose backend response carries data mints a lease
with the default 24-hour duration at this concrete input. -/
theorem c3_lease_minting_witness :
    (handleRequest
      ⟨some (fun _ => .ok (some ⟨some [("k", .str "v")], none, none, []⟩)),
        "plugin", []⟩
      ⟨"GET", "/v1/plugin/x", "", .empty⟩ 0 "abc" "rid").resp.status = 200 ∧
    (handleRequest
      ⟨some (fun _ => .ok (some ⟨some [("k", .str "v")], none, none, []⟩)),
        "plugin", []⟩
      ⟨"GET", "/v1/plugin/x", "", .empty⟩ 0 "abc" "rid").leases =
      lset [] (mkLeaseID "plugin" "x" "abc")
        ⟨mkLeaseID "plugin" "x" "abc", "x", [("k", .str "v")], none, 0,
         0 + leaseDurationOf ⟨some [("k", .str "v")], none, none, []⟩,
         leaseDurationOf ⟨some [("k", .str "v")], none, none, []⟩, true⟩ := by
  have h := c3_lease_minting
    ⟨some (fun _ => .ok (some ⟨some [("k", .str "v")], none, none, []⟩)),
      "plugin", []⟩
    (fun _ => .ok (some ⟨some [("k", .str "v")], none, none, []⟩))
    ⟨"GET", "/v1/plugin/x", "", .empty⟩ 0 "abc" "rid" none "x"
    ⟨some [("k", .str "v")], none, none, []⟩ [("k", .str "v")]
    rfl rfl rfl rfl rfl
  exact ⟨h.1, h.2.1⟩

/-- C7 counterexample: the backend response carries both a secret and an
auth payload, yet the encoded envelope has no "secret" field at all and
its "auth" field is unconditionally null (the built auth entry is
overwritten), refuting "includes data, secret, auth, and warnings
exactly when the backend response carries them". -/
theorem c7_counterexample :
    ∃ env,
      (handleRequest
        ⟨some (fun _ => .ok (some ⟨some [("k", .str "v")],
            some ⟨100 * nsPerSec⟩, some ⟨["p"], [], 0, true⟩, []⟩)),
          "plugin", []⟩
        ⟨"POST", "/v1/plugin/x", "", .empty⟩ 0 "abc" "rid").resp.body
        = .envelope env ∧
      mlookup env "secret" = none ∧
      mlookup env "auth" = some .null := by
  exact ⟨_, rfl, rfl, rfl⟩

/-- C7 (amended): on a successful backend call the envelope includes data
exactly when the response carries it and warnings exactly when they are
non-empty; the secret payload is never included; auth and wrap_info are
always stamped as null (any carried auth payload is overwritten); a
fresh request identifier and the mount-path-derived type tag are always
stamped; the envelope is encoded with content type application/json. -/
theorem c7_amended (st : HandlerState) (b : Backend) (r : HttpRequest)
    (now : Int) (rand reqId : String) (bd : Option JObj) (op : Operation)
    (p : String) (resp : LResponse)
    (hb : st.backend = some b)
    (hdec : decodeBody r = .ok bd)
    (hop : resolveOperation (normPath st.mountPath r.urlPath) r.queryOperation
      r.method = some (op, p))
    (hcall : b ⟨op, p, none, bd⟩ = .ok (some resp)) :
    (handleRequest st r now rand reqId).resp.status = 200 ∧
    (handleRequest st r now rand reqId).resp.contentType = ctJson ∧
    ∃ env, (handleRequest st r now rand reqId).resp.body = .envelope env ∧
      mlookup env "data" = resp.data.map JValue.obj ∧
      (resp.warnings.length > 0 →
        mlookup env "warnings" = some (.arr (resp.warnings.map .str))) ∧
      (resp.warnings = [] → mlookup env "warnings" = none) ∧
      mlookup env "secret" = none ∧
      mlookup env "auth" = some .null ∧
      mlookup env "wrap_info" = some .null ∧
      mlookup env "request_id" = some (.str reqId) ∧
      mlookup env "mount_type" = some (.str (goTrimPrefix st.mountPath "/")) := by
  obtain ⟨rdata, rsec, rauth, rwarn⟩ := resp
  refine ⟨?_, ?_, ?_⟩
  · simp only [handleRequest, hb, hdec, hop, hcall]
  · simp only [handleRequest, hb, hdec, hop, hcall]
  · simp only [handleRequest, hb, hdec, hop, hcall, buildSuccess]
    cases rdata with
    | none =>
      cases rauth <;> cases rwarn <;>
        refine ⟨_, rfl, ?_, ?_, ?_, ?_, ?_, ?_, ?_, ?_⟩ <;>
        simp [mset, mlookup]
    | some d =>
      by_cases hr : op = Operation.read
      · subst hr
        cases rauth <;> cases rwarn <;>
          refine ⟨_, rfl, ?_, ?_, ?_, ?_, ?_, ?_, ?_, ?_⟩ <;>
          simp [mset, mlookup]
      · simp only [if_neg hr]
        cases rauth <;> cases rwarn <;>
          refine ⟨_, rfl, ?_, ?_, ?_, ?_, ?_, ?_, ?_, ?_⟩ <;>
          simp [mset, mlookup]

/-- C7 witness: at a concrete update request with data, a warning, a
secret and an auth payload, the envelope carries the data and warning,
no secret, null auth and wrap_info, the request id and the mount tag. -/
theorem c7_amended_witness :
    (handleRequest
      ⟨some (fun _ => .ok (some ⟨some [("k", .str "v")],
          some ⟨100 * nsPerSec⟩, some ⟨["p"], [], 0, true⟩, ["w1"]⟩)),
        "plugin", []⟩
      ⟨"POST", "/v1/plugin/x", "", .empty⟩ 0 "abc" "rid").resp.status = 200 ∧
    ∃ env,
      (handleRequest
        ⟨some (fun _ => .ok (some ⟨some [("k", .str "v")],
            some ⟨100 * nsPerSec⟩, some ⟨["p"], [], 0, true⟩, ["w1"]⟩)),
          "plugin", []⟩
        ⟨"POST", "/v1/plugin/x", "", .empty⟩ 0 "abc" "rid").resp.body
        = .envelope env ∧
      mlookup env "data" = some (.obj [("k", .str "v")]) ∧
      mlookup env "warnings" = some (.arr [.str "w1"]) ∧
      mlookup env "secret" = none ∧
      mlookup env "request_id" = some (.str "rid") ∧
      mlookup env "mount_type" = some (.str "plugin") := by
  have h := c7_amended
    ⟨some (fun _ => .ok (some ⟨some [("k", .str "v")],
        some ⟨100 * nsPerSec⟩, some ⟨["p"], [], 0, true⟩, ["w1"]⟩)),
      "plugin", []⟩
    (fun _ => .ok (some ⟨some [("k", .str "v")],
        some ⟨100 * nsPerSec⟩, some ⟨["p"], [], 0, true⟩, ["w1"]⟩))
    ⟨"POST", "/v1/plugin/x", "", .empty⟩ 0 "abc" "rid" none .update "x"
    ⟨some [("k", .str "v")], some ⟨100 * nsPerSec⟩,
      some ⟨["p"], [], 0, true⟩, ["w1"]⟩
    rfl rfl rfl rfl
  obtain ⟨h1, _h2, env, he, hd, hw, _hw2, hs, _ha, _hwi, hrid, hmt⟩ := h
  refine ⟨h1, env, he, hd, ?_, hs, hrid, ?_⟩
  · simpa using hw (by decide)
  · have e : goTrimPrefix "plugin" "/" = "plugin" := by decide
    rw [e] at hmt
    exact hmt

/-- C6 counterexample: a lease issued at time 0 with the default 24-hour
expiry, renewed with no increment at time 1000s, gets expire_time
1000s + 24h (renewal time plus the default), not expire_time + 24h as
the claim's "extends the lease's expire_time by the default duration"
states. -/
theorem c6_counterexample :
    (lget (handleLeaseRenew
      ⟨some (fun _ => .ok none), "plugin",
        [("L", ⟨"L", "x", [], none, 0, hours24, hours24, true⟩)]⟩
      ⟨"PUT", "/v1/sys/leases/renew", "", .json [("lease_id", .str "L")]⟩
      (1000 * nsPerSec)).leases "L").map LeaseInfo.expireTime
      = some (1000 * nsPerSec + hours24) ∧
    1000 * nsPerSec + hours24 ≠ hours24 + hours24 := by
  exact ⟨rfl, by decide⟩

/-- C6 (amended): for every successful renewal the increment is accepted
as a numeric seconds value or a duration string and defaults to 24 hours
when unspecified or zero; the renewal sets expire_time to the renewal
time plus the increment and the stored duration to the increment (it
does not add the increment to the old expire_time); repeating the
renewal with the same increment at the same instant is idempotent (the
second call leaves the table unchanged). -/
theorem c6_amended (st : HandlerState) (b : Backend) (r : HttpRequest) (o : JObj)
    (id : String) (li : LeaseInfo) (now : Int) (ro : Option LResponse)
    (hb : st.backend = some b) (hm : r.method = "PUT") (hbody : r.body = .json o)
    (hid : extractLeaseId (some o) = some id)
    (hli : lget st.leases id = some li)
    (hren : li.renewable = true) (hexp : ¬ now > li.expireTime)
    (hpos : 0 ≤ computeIncrement (mlookup o "increment"))
    (hbk : b (renewReqOf id li (computeIncrement (mlookup o "increment"))) = .ok ro) :
    (handleLeaseRenew st r now).leases =
      lupdate st.leases id (now + computeIncrement (mlookup o "increment"))
        (computeIncrement (mlookup o "increment")) ∧
    (handleLeaseRenew st r now).resp.status = 200 ∧
    (∃ env, (handleLeaseRenew st r now).resp.body = .envelope env ∧
      mlookup env "lease_duration"
        = some (.num (durSeconds (computeIncrement (mlookup o "increment"))))) ∧
    (mlookup o "increment" = none →
      computeIncrement (mlookup o "increment") = hours24) ∧
    (∀ n : Int, mlookup o "increment" = some (.num n) → ¬ n = 0 →
      computeIncrement (mlookup o "increment") = n * nsPerSec) ∧
    (∀ s dns, mlookup o "increment" = some (.str s) →
      goParseDuration s = some dns → ¬ dns = 0 →
      computeIncrement (mlookup o "increment") = dns) ∧
    (handleLeaseRenew { st with leases := (handleLeaseRenew st r now).leases }
      r now).leases = (handleLeaseRenew st r now).leases := by
  have hgate : (r.method == "PUT" || r.method == "POST") = true := by simp [hm]
  have hout : (handleLeaseRenew st r now).leases =
      lupdate st.leases id (now + computeIncrement (mlookup o "increment"))
        (computeIncrement (mlookup o "increment")) := by
    simp [handleLeaseRenew, hgate, hbody, bodyToData, hid, hli, hren, hexp, hb, hbk]
  have hli2 := lget_lupdate_self st.leases id
    (now + computeIncrement (mlookup o "increment"))
    (computeIncrement (mlookup o "increment")) li hli
  have hexp2 : ¬ now > now + computeIncrement (mlookup o "increment") := by omega
  have hout2 : (handleLeaseRenew
      { st with leases := (lupdate st.leases id
          (now + computeIncrement (mlookup o "increment"))
          (computeIncrement (mlookup o "increment"))) } r now).leases =
      lupdate (lupdate st.leases id
          (now + computeIncrement (mlookup o "increment"))
          (computeIncrement (mlookup o "increment"))) id
        (now + computeIncrement (mlookup o "increment"))
        (computeIncrement (mlookup o "increment")) := by
    have hbk2 : b ⟨Operation.renew, li.path, li.secret,
        some [("lease_id", .str id),
          ("increment", .num (durSeconds (computeIncrement (mlookup o "increment")))),
          ("issue_time", .time li.issueTime)]⟩ = .ok ro := hbk
    simp [handleLeaseRenew, hgate, hbody, bodyToData, hid, hli2, hren, hexp2,
      hb, renewReqOf, hbk2]
  refine ⟨hout, ?_, ?_, ?_, ?_, ?_, ?_⟩
  · simp [handleLeaseRenew, hgate, hbody, bodyToData, hid, hli, hren, hexp, hb, hbk]
  · have henv : (handleLeaseRenew st r now).resp.body =
        .envelope [("lease_id", .str id),
          ("lease_duration", .num (durSeconds (computeIncrement (mlookup o "increment")))),
          ("renewable", .bool true), ("data", .obj li.data)] := by
      simp [handleLeaseRenew, hgate, hbody, bodyToData, hid, hli, hren, hexp, hb, hbk]
    exact ⟨_, henv, by simp [mlookup, List.find?]⟩
  · intro h
    simp [computeIncrement, h, hours24, nsPerSec]
  · intro n h hn
    have hnz : ¬ (n * nsPerSec = 0) := by
      simp [nsPerSec, hn]
    simp [computeIncrement, h, hnz]
  · intro s dns h hparse hdns
    simp [computeIncrement, h, hparse, hdns]
  · rw [hout, hout2, lupdate_idem]

/-- C6 witness: a concrete renewal with no increment uses the 24-hour
default, sets expire_time to renewal time plus the default, and a second
identical renewal at the same instant leaves the table unchanged. -/
theorem c6_amended_witness :
    (handleLeaseRenew ⟨some (fun _ => .ok none), "plugin",
        [("L", ⟨"L", "x", [], none, 0, hours24, hours24, true⟩)]⟩
        ⟨"PUT", "/v1/sys/leases/renew", "", .json [("lease_id", .str "L")]⟩ 0).leases
      = lupdate [("L", ⟨"L", "x", [], none, 0, hours24, hours24, true⟩)] "L"
          (0 + computeIncrement (mlookup [("lease_id", .str "L")] "increment"))
          (computeIncrement (mlookup [("lease_id", .str "L")] "increment")) ∧
    computeIncrement (mlookup [("lease_id", .str "L")] "increment") = hours24 ∧
    (handleLeaseRenew
      { (⟨some (fun _ => .ok none), "plugin",
          [("L", ⟨"L", "x", [], none, 0, hours24, hours24, true⟩)]⟩ : HandlerState)
        with leases := (handleLeaseRenew ⟨some (fun _ => .ok none), "plugin",
          [("L", ⟨"L", "x", [], none, 0, hours24, hours24, true⟩)]⟩
          ⟨"PUT", "/v1/sys/leases/renew", "", .json [("lease_id", .str "L")]⟩ 0).leases }
      ⟨"PUT", "/v1/sys/leases/renew", "", .json [("lease_id", .str "L")]⟩ 0).leases
      = (handleLeaseRenew ⟨some (fun _ => .ok none), "plugin",
          [("L", ⟨"L", "x", [], none, 0, hours24, hours24, true⟩)]⟩
          ⟨"PUT", "/v1/sys/leases/renew", "", .json [("lease_id", .str "L")]⟩ 0).leases := by
  have h := c6_amended
    ⟨some (fun _ => .ok none), "plugin",
      [("L", ⟨"L", "x", [], none, 0, hours24, hours24, true⟩)]⟩
    (fun _ => .ok none)
    ⟨"PUT", "/v1/sys/leases/renew", "", .json [("lease_id", .str "L")]⟩
    [("lease_id", .str "L")] "L"
    ⟨"L", "x", [], none, 0, hours24, hours24, true⟩ 0 none
    rfl rfl rfl rfl rfl rfl (by decide) (by decide) rfl
  exact ⟨h.1, h.2.2.2.1 rfl, h.2.2.2.2.2.2⟩
